import Mathlib

/-!
Verification of the IPv6 address and TCP endpoint value types from
`asio/include/asio/ipv6/address.hpp` and `asio/include/asio/ipv6/tcp.hpp`.

The address is a 16-byte value (`in6_addr`); comparisons are `memcmp` over the
16 bytes; classification delegates to the platform `IN6_IS_ADDR_*` macros.
The endpoint wraps a `sockaddr_in6` structure (family, port in network byte
order, flow info, 16-byte address, scope id).  Platform-provided pieces
(the macros, `htons`/`ntohs`, `inet_pton`, `sizeof(sockaddr_in6)`) are not
part of the repository and are modelled from the spec where noted.
-/

namespace asio
namespace ipv6

/-- A single byte as stored in `in6_addr.s6_addr` (`unsigned char`). -/
abbrev Byte : Type := Fin 256

/-- `address::bytes_type`, i.e. `boost::array<unsigned char, 16>`:
a total assignment of a byte to each of the 16 positions. -/
abbrev bytes_type : Type := Fin 16 → Byte

/-- The platform `in6_addr` struct: 16 raw bytes in network (big-endian) order. -/
structure in6_addr where
  s6_addr : bytes_type
  deriving DecidableEq

/-- Modelled from the spec: the platform constant `IN6ADDR_ANY_INIT`
(the all-zero address). -/
def IN6ADDR_ANY_INIT : in6_addr := ⟨fun _ => 0⟩

/-- Modelled from the spec: the platform constant `IN6ADDR_LOOPBACK_INIT`
(`::1`: fifteen zero bytes followed by `0x01`). -/
def IN6ADDR_LOOPBACK_INIT : in6_addr := ⟨fun i => if i.val = 15 then 1 else 0⟩

/-- `memcmp` on byte sequences: result of comparing the first differing
byte as unsigned values, `.eq` when no byte differs. -/
def memcmpBytes : List Byte → List Byte → Ordering
  | [], [] => .eq
  | [], _ :: _ => .lt
  | _ :: _, [] => .gt
  | a :: as, b :: bs =>
    if a < b then .lt else if b < a then .gt else memcmpBytes as bs

/-- The 16 bytes of an `in6_addr` as a list, index order. -/
def in6_addr.bytesList (x : in6_addr) : List Byte := List.ofFn x.s6_addr

/-- `memcmp(&x, &y, sizeof(in6_addr))` as used by the address comparison
operators. -/
def memcmp_in6 (x y : in6_addr) : Ordering :=
  memcmpBytes x.bytesList y.bytesList

/-- `asio::ipv6::address`: holds a single `in6_addr addr_` member. -/
structure address where
  addr_ : in6_addr
  deriving DecidableEq

/-- `address::address()`: default constructor, sets `addr_ = IN6ADDR_ANY_INIT`. -/
def address.mk_default : address := ⟨IN6ADDR_ANY_INIT⟩

/-- `address::address(const bytes_type&)`: `memcpy(addr_.s6_addr, bytes.elems, 16)`. -/
def address.of_bytes (bytes : bytes_type) : address := ⟨⟨bytes⟩⟩

/-- `address::to_bytes()`: `memcpy(bytes.elems, addr_.s6_addr, 16)`. -/
def address.to_bytes (a : address) : bytes_type := a.addr_.s6_addr

/-- `address::any()`: returns `address()`. -/
def address.any : address := address.mk_default

/-- `address::loopback()`: returns an address holding `IN6ADDR_LOOPBACK_INIT`. -/
def address.loopback : address := ⟨IN6ADDR_LOOPBACK_INIT⟩

/-- `operator==(a1, a2)`: `memcmp(&a1.addr_, &a2.addr_, sizeof(in6_addr)) == 0`. -/
def address.beq (a1 a2 : address) : Bool :=
  memcmp_in6 a1.addr_ a2.addr_ == .eq

/-- `operator!=(a1, a2)`: `memcmp(&a1.addr_, &a2.addr_, sizeof(in6_addr)) != 0`. -/
def address.bne (a1 a2 : address) : Bool :=
  memcmp_in6 a1.addr_ a2.addr_ != .eq

/-- `operator<(a1, a2)`: `memcmp(&a1.addr_, &a2.addr_, sizeof(in6_addr)) < 0`. -/
def address.blt (a1 a2 : address) : Bool :=
  memcmp_in6 a1.addr_ a2.addr_ == .lt

/-- Modelled from the spec: the platform macro `IN6_IS_ADDR_LINKLOCAL`
(not under src/): byte 0 is `0xFE` and the top two bits of byte 1 are `10`. -/
def IN6_IS_ADDR_LINKLOCAL (x : in6_addr) : Bool :=
  x.s6_addr 0 == (0xFE : Byte) && (x.s6_addr 1).val &&& 0xC0 == 0x80

/-- Modelled from the spec: the platform macro `IN6_IS_ADDR_SITELOCAL`
(not under src/): byte 0 is `0xFE` and the top two bits of byte 1 are `11`. -/
def IN6_IS_ADDR_SITELOCAL (x : in6_addr) : Bool :=
  x.s6_addr 0 == (0xFE : Byte) && (x.s6_addr 1).val &&& 0xC0 == 0xC0

/-- Modelled from the spec: the platform macro `IN6_IS_ADDR_V4MAPPED`
(not under src/): bytes 0..9 are zero and bytes 10, 11 are `0xFF`. -/
def IN6_IS_ADDR_V4MAPPED (x : in6_addr) : Bool :=
  x.s6_addr 0 == (0 : Byte) && x.s6_addr 1 == (0 : Byte) &&
  x.s6_addr 2 == (0 : Byte) && x.s6_addr 3 == (0 : Byte) &&
  x.s6_addr 4 == (0 : Byte) && x.s6_addr 5 == (0 : Byte) &&
  x.s6_addr 6 == (0 : Byte) && x.s6_addr 7 == (0 : Byte) &&
  x.s6_addr 8 == (0 : Byte) && x.s6_addr 9 == (0 : Byte) &&
  x.s6_addr 10 == (0xFF : Byte) && x.s6_addr 11 == (0xFF : Byte)

/-- Modelled from the spec: the platform macro `IN6_IS_ADDR_V4COMPAT`
(not under src/): bytes 0..11 are zero and the trailing 32-bit word, read
big-endian, is greater than 1. -/
def IN6_IS_ADDR_V4COMPAT (x : in6_addr) : Bool :=
  x.s6_addr 0 == (0 : Byte) && x.s6_addr 1 == (0 : Byte) &&
  x.s6_addr 2 == (0 : Byte) && x.s6_addr 3 == (0 : Byte) &&
  x.s6_addr 4 == (0 : Byte) && x.s6_addr 5 == (0 : Byte) &&
  x.s6_addr 6 == (0 : Byte) && x.s6_addr 7 == (0 : Byte) &&
  x.s6_addr 8 == (0 : Byte) && x.s6_addr 9 == (0 : Byte) &&
  x.s6_addr 10 == (0 : Byte) && x.s6_addr 11 == (0 : Byte) &&
  decide (1 < (x.s6_addr 12).val * 2 ^ 24 + (x.s6_addr 13).val * 2 ^ 16 +
    (x.s6_addr 14).val * 2 ^ 8 + (x.s6_addr 15).val)

/-- Modelled from the spec: the platform macro `IN6_IS_ADDR_MULTICAST`
(not under src/): byte 0 is `0xFF`. -/
def IN6_IS_ADDR_MULTICAST (x : in6_addr) : Bool :=
  x.s6_addr 0 == (0xFF : Byte)

/-- `address::is_link_local()`: `IN6_IS_ADDR_LINKLOCAL(&addr_) != 0`. -/
def address.is_link_local (a : address) : Bool := IN6_IS_ADDR_LINKLOCAL a.addr_

/-- `address::is_site_local()`: `IN6_IS_ADDR_SITELOCAL(&addr_) != 0`. -/
def address.is_site_local (a : address) : Bool := IN6_IS_ADDR_SITELOCAL a.addr_

/-- `address::is_ipv4_mapped()`: `IN6_IS_ADDR_V4MAPPED(&addr_) != 0`. -/
def address.is_ipv4_mapped (a : address) : Bool := IN6_IS_ADDR_V4MAPPED a.addr_

/-- `address::is_ipv4_compatible()`: `IN6_IS_ADDR_V4COMPAT(&addr_) != 0`. -/
def address.is_ipv4_compatible (a : address) : Bool := IN6_IS_ADDR_V4COMPAT a.addr_

/-- `address::is_multicast()`: `IN6_IS_ADDR_MULTICAST(&addr_) != 0`. -/
def address.is_multicast (a : address) : Bool := IN6_IS_ADDR_MULTICAST a.addr_

/-- The 16 bytes of an address read as one 128-bit big-endian natural number
(byte 0 is most significant).  Used to state the spec's bit-level patterns. -/
def toNat128 (a : address) : Nat :=
  (a.to_bytes 0).val * 2 ^ 120 + (a.to_bytes 1).val * 2 ^ 112 +
  (a.to_bytes 2).val * 2 ^ 104 + (a.to_bytes 3).val * 2 ^ 96 +
  (a.to_bytes 4).val * 2 ^ 88 + (a.to_bytes 5).val * 2 ^ 80 +
  (a.to_bytes 6).val * 2 ^ 72 + (a.to_bytes 7).val * 2 ^ 64 +
  (a.to_bytes 8).val * 2 ^ 56 + (a.to_bytes 9).val * 2 ^ 48 +
  (a.to_bytes 10).val * 2 ^ 40 + (a.to_bytes 11).val * 2 ^ 32 +
  (a.to_bytes 12).val * 2 ^ 24 + (a.to_bytes 13).val * 2 ^ 16 +
  (a.to_bytes 14).val * 2 ^ 8 + (a.to_bytes 15).val

/-- `asio::error`: carries an int error code (`code_`). -/
structure error where
  code : Nat
  deriving DecidableEq

/-- Modelled from the spec: the platform value of `asio::error::invalid_argument`
(`EINVAL`). -/
def invalid_argument : Nat := 22

/-- Modelled from the spec: the OS/library diagnostic code reported by
`socket_ops::get_error()` after a failed `inet_pton` conversion. -/
def pton_failure_os_code : Nat := 22

/-- Modelled from the spec: `AF_INET6`, the platform address-family identifier
for IPv6. -/
def AF_INET6 : Nat := 10

/-- Modelled from the spec: `sizeof(sockaddr_in6)`, the one fixed size of the
packed endpoint structure (28 on the reference platform). -/
def sizeof_sockaddr_in6 : Nat := 28

/-- Modelled from the spec: `socket_ops::host_to_network_short` stores a 16-bit
value in network (big-endian) byte order.  The stored field is modelled by its
two memory bytes, most significant first. -/
def host_to_network_short (v : Nat) : Byte × Byte :=
  (⟨v / 256 % 256, by omega⟩, ⟨v % 256, by omega⟩)

/-- Modelled from the spec: `socket_ops::network_to_host_short` reads a 16-bit
value back out of its two network-order memory bytes. -/
def network_to_host_short (b : Byte × Byte) : Nat :=
  b.1.val * 256 + b.2.val

/-- The platform `sockaddr_in6` struct (`asio::detail::inet_addr_v6_type`):
family tag, port (as its two network-order bytes), flow info, 16-byte
address, scope id. -/
structure sockaddr_in6 where
  sin6_family : Nat
  sin6_port : Byte × Byte
  sin6_flowinfo : Nat
  sin6_addr : in6_addr
  sin6_scope_id : Nat
  deriving DecidableEq

/-- `asio::ipv6::tcp::endpoint`: holds a single `sockaddr_in6 addr_` member. -/
structure endpoint where
  addr_ : sockaddr_in6
  deriving DecidableEq

/-- `endpoint::endpoint()`: family `AF_INET6`, port 0, flow info 0,
address `IN6ADDR_LOOPBACK_INIT`, scope id 0. -/
def endpoint.mk_default : endpoint :=
  ⟨⟨AF_INET6, ((0 : Byte), (0 : Byte)), 0, IN6ADDR_LOOPBACK_INIT, 0⟩⟩

/-- `endpoint::endpoint(unsigned short port_num)`: family `AF_INET6`,
port `htons(port_num)`, flow info 0, address `IN6ADDR_LOOPBACK_INIT`,
scope id 0. -/
def endpoint.of_port (port_num : Nat) : endpoint :=
  ⟨⟨AF_INET6, host_to_network_short port_num, 0, IN6ADDR_LOOPBACK_INIT, 0⟩⟩

/-- `endpoint::endpoint(unsigned short port_num, const address& addr)`:
family `AF_INET6`, port `htons(port_num)`, flow info 0, the 16 bytes of
`addr` copied in, scope id 0. -/
def endpoint.of_port_addr (port_num : Nat) (addr : address) : endpoint :=
  ⟨⟨AF_INET6, host_to_network_short port_num, 0, ⟨addr.to_bytes⟩, 0⟩⟩

/-- `endpoint::size()`: `sizeof(addr_)`, the same constant for every instance. -/
def endpoint.size (_e : endpoint) : Nat := sizeof_sockaddr_in6

/-- `endpoint::size(size_type)`: throws `invalid_argument` unless the given
size equals `sizeof(addr_)`; never modifies the endpoint.  Modelled as the
resulting state paired with the optionally thrown error. -/
def endpoint.set_size (e : endpoint) (s : Nat) : endpoint × Option error :=
  if s ≠ sizeof_sockaddr_in6 then (e, some ⟨invalid_argument⟩) else (e, none)

/-- `endpoint::port()`: `ntohs(addr_.sin6_port)`. -/
def endpoint.port (e : endpoint) : Nat :=
  network_to_host_short e.addr_.sin6_port

/-- `endpoint::port(unsigned short port_num)`: `addr_.sin6_port = htons(port_num)`. -/
def endpoint.set_port (e : endpoint) (port_num : Nat) : endpoint :=
  ⟨{ e.addr_ with sin6_port := host_to_network_short port_num }⟩

/-- `endpoint::address()`: copies `addr_.sin6_addr.s6_addr` out and constructs
an `address` from those bytes. -/
def endpoint.address (e : endpoint) : ipv6.address :=
  ipv6.address.of_bytes e.addr_.sin6_addr.s6_addr

/-- `endpoint::address(const address& addr)`: copies the 16 bytes of `addr`
into `addr_.sin6_addr.s6_addr`. -/
def endpoint.set_address (e : endpoint) (addr : ipv6.address) : endpoint :=
  ⟨{ e.addr_ with sin6_addr := ⟨addr.to_bytes⟩ }⟩

/-- The numeric value of a hexadecimal digit, `none` for any other character. -/
def hexDigitVal (c : Char) : Option Nat :=
  if '0' ≤ c ∧ c ≤ '9' then some (c.toNat - 48)
  else if 'a' ≤ c ∧ c ≤ 'f' then some (c.toNat - 97 + 10)
  else if 'A' ≤ c ∧ c ≤ 'F' then some (c.toNat - 65 + 10)
  else none

/-- Modelled from the spec: one colon-separated group of the IPv6 textual
notation, 1 to 4 hexadecimal digits, value below `2^16`. -/
def parseHexGroup (cs : List Char) : Option Nat :=
  if cs.length = 0 ∨ 4 < cs.length then none
  else
    cs.foldl
      (fun acc c =>
        match acc, hexDigitVal c with
        | some n, some d => some (n * 16 + d)
        | _, _ => none)
      (some 0)

/-- Modelled from the spec: one decimal octet of an embedded IPv4-dotted
suffix, 1 to 3 digits, value at most 255, no leading zero. -/
def parseDecOctet (cs : List Char) : Option Nat :=
  if cs.length = 0 ∨ 3 < cs.length then none
  else if 1 < cs.length ∧ cs.head? = some '0' then none
  else if cs.all (fun c => decide ('0' ≤ c) && decide (c ≤ '9')) then
    let n := cs.foldl (fun acc c => acc * 10 + (c.toNat - 48)) 0
    if n ≤ 255 then some n else none
  else none

/-- Split a character list at every occurrence of the given character. -/
def splitOnChar (sep : Char) : List Char → List (List Char)
  | [] => [[]]
  | c :: rest =>
    let r := splitOnChar sep rest
    if c = sep then [] :: r
    else
      match r with
      | [] => [[c]]
      | h :: t => (c :: h) :: t

/-- Split a character list at the first occurrence of `"::"`, when present. -/
def splitDoubleColon : List Char → Option (List Char × List Char)
  | [] => none
  | ':' :: ':' :: rest => some ([], rest)
  | c :: rest =>
    match splitDoubleColon rest with
    | some (l, r) => some (c :: l, r)
    | none => none

/-- Modelled from the spec: an embedded IPv4-dotted suffix `d.d.d.d`,
yielding its four byte values. -/
def parseIPv4Suffix (cs : List Char) : Option (List Nat) :=
  match splitOnChar '.' cs with
  | [a, b, c, d] =>
    match parseDecOctet a, parseDecOctet b, parseDecOctet c, parseDecOctet d with
    | some va, some vb, some vc, some vd => some [va, vb, vc, vd]
    | _, _, _, _ => none
  | _ => none

/-- The two big-endian bytes of a 16-bit group value. -/
def groupBytes (g : Nat) : List Nat := [g / 256 % 256, g % 256]

/-- Parse every part of a colon-separated list as a hexadecimal group,
yielding the concatenated byte values. -/
def parseHexParts : List (List Char) → Option (List Nat)
  | [] => some []
  | p :: ps =>
    match parseHexGroup p, parseHexParts ps with
    | some g, some bs => some (groupBytes g ++ bs)
    | _, _ => none

/-- Modelled from the spec: one side of an (optionally) `::`-compressed IPv6
literal: colon-separated hexadecimal groups; when `allowV4` is set the final
part may instead be an IPv4-dotted suffix.  An empty side yields no bytes. -/
def parseSideBytes (allowV4 : Bool) (cs : List Char) : Option (List Nat) :=
  if cs.isEmpty then some []
  else
    let parts := splitOnChar ':' cs
    if allowV4 then
      match parts.getLast? with
      | none => none
      | some last =>
        if last.contains '.' then
          match parseHexParts parts.dropLast, parseIPv4Suffix last with
          | some hs, some v4 => some (hs ++ v4)
          | _, _ => none
        else parseHexParts parts
    else parseHexParts parts

/-- Pack a list of byte values into a `bytes_type`, padding with zero. -/
def bytesOfList (l : List Nat) : bytes_type :=
  fun i => ⟨l.getD i.val 0 % 256, by omega⟩

/-- Modelled from the spec: `socket_ops::inet_pton` for `AF_INET6` (not under
src/): parses standard IPv6 textual notation — colon-separated hexadecimal
groups, at most one `::` zero-run compression standing for at least one zero
group, and an optional embedded IPv4-dotted suffix — and returns the 16-byte
value, or `none` when the text does not conform. -/
def inet_pton_v6 (host : String) : Option bytes_type :=
  let cs := host.data
  match splitDoubleColon cs with
  | none =>
    match parseSideBytes true cs with
    | some bs => if bs.length = 16 then some (bytesOfList bs) else none
    | none => none
  | some (l, r) =>
    if (splitDoubleColon r).isSome then none
    else
      match parseSideBytes false l, parseSideBytes true r with
      | some lb, some rb =>
        if lb.length + rb.length ≤ 14 then
          some (bytesOfList (lb ++ List.replicate (16 - lb.length - rb.length) 0 ++ rb))
        else none
      | _, _ => none

/-- `address::address(const char*)` and `address::address(const std::string&)`:
on `inet_pton(AF_INET6, host, &addr_) <= 0` an `asio::error` carrying
`get_error()` is thrown; otherwise the parsed bytes become the address. -/
def address.of_string (host : String) : Except error address :=
  match inet_pton_v6 host with
  | none => .error ⟨pton_failure_os_code⟩
  | some b => .ok ⟨⟨b⟩⟩

/-- `address::operator=(const char*)` and `operator=(const std::string&)`:
`address tmp(addr); addr_ = tmp.addr_;` — the temporary's constructor throws
before the assignment when parsing fails.  Modelled as the resulting state of
the target paired with the optionally thrown error. -/
def address.assign_string (a : address) (host : String) : address × Option error :=
  match address.of_string host with
  | .error e => (a, some e)
  | .ok tmp => (tmp, none)

/-- `operator==(e1, e2)`: `e1.address() == e2.address() && e1.port() == e2.port()`. -/
def endpoint.beq (e1 e2 : endpoint) : Bool :=
  address.beq e1.address e2.address && e1.port == e2.port

/-- `operator!=(e1, e2)`: `e1.address() != e2.address() || e1.port() != e2.port()`. -/
def endpoint.bne (e1 e2 : endpoint) : Bool :=
  address.bne e1.address e2.address || e1.port != e2.port

/-- `operator<(e1, e2)`: address comparison first, then port comparison. -/
def endpoint.blt (e1 e2 : endpoint) : Bool :=
  if address.blt e1.address e2.address then true
  else if address.bne e1.address e2.address then false
  else decide (e1.port < e2.port)

theorem ordering_beq_true_iff (o o' : Ordering) : (o == o') = true ↔ o = o' := by
  cases o <;> cases o' <;> decide

theorem memcmpBytes_eq_iff : ∀ as bs : List Byte,
    memcmpBytes as bs = Ordering.eq ↔ as = bs := by
  intro as
  induction as with
  | nil => intro bs; cases bs <;> simp [memcmpBytes]
  | cons a as ih =>
    intro bs
    cases bs with
    | nil => simp [memcmpBytes]
    | cons b bs =>
      rcases lt_trichotomy a b with h | h | h
      · simp [memcmpBytes, h, ne_of_lt h]
      · subst h; simp [memcmpBytes, lt_irrefl, ih]
      · simp [memcmpBytes, h, lt_asymm h, (ne_of_lt h).symm]

theorem memcmpBytes_cons_lt (a b : Byte) (as bs : List Byte) :
    memcmpBytes (a :: as) (b :: bs) = Ordering.lt ↔
      a < b ∨ (a = b ∧ memcmpBytes as bs = Ordering.lt) := by
  rcases lt_trichotomy a b with h | h | h
  · simp [memcmpBytes, h]
  · subst h; simp [memcmpBytes, lt_irrefl]
  · simp [memcmpBytes, h, lt_asymm h, (ne_of_lt h).symm]

theorem memcmpBytes_swap : ∀ as bs : List Byte,
    memcmpBytes bs as = (memcmpBytes as bs).swap := by
  intro as
  induction as with
  | nil => intro bs; cases bs <;> rfl
  | cons a as ih =>
    intro bs
    cases bs with
    | nil => rfl
    | cons b bs =>
      rcases lt_trichotomy a b with h | h | h
      · simp [memcmpBytes, h, lt_asymm h, Ordering.swap]
      · subst h; simp [memcmpBytes, lt_irrefl, ih bs]
      · simp [memcmpBytes, h, lt_asymm h, Ordering.swap]

theorem memcmpBytes_lt_trans : ∀ as bs cs : List Byte,
    memcmpBytes as bs = Ordering.lt → memcmpBytes bs cs = Ordering.lt →
      memcmpBytes as cs = Ordering.lt := by
  intro as
  induction as with
  | nil =>
    intro bs cs h1 h2
    cases cs with
    | nil =>
      cases bs with
      | nil => simp [memcmpBytes] at h1
      | cons b bs => simp [memcmpBytes] at h2
    | cons c cs => simp [memcmpBytes]
  | cons a as ih =>
    intro bs cs h1 h2
    cases bs with
    | nil => simp [memcmpBytes] at h1
    | cons b bs =>
      cases cs with
      | nil => simp [memcmpBytes] at h2
      | cons c cs =>
        rw [memcmpBytes_cons_lt] at h1 h2 ⊢
        rcases h1 with h1 | ⟨rfl, h1⟩
        · rcases h2 with h2 | ⟨rfl, h2⟩
          · exact Or.inl (lt_trans h1 h2)
          · exact Or.inl h1
        · rcases h2 with h2 | ⟨rfl, h2⟩
          · exact Or.inl h2
          · exact Or.inr ⟨rfl, ih bs cs h1 h2⟩

theorem memcmpBytes_lt_iff_lex : ∀ as bs : List Byte,
    memcmpBytes as bs = Ordering.lt ↔ List.Lex (fun x y : Byte => x < y) as bs := by
  intro as
  induction as with
  | nil =>
    intro bs
    cases bs with
    | nil => simp [memcmpBytes]
    | cons b bs =>
      constructor
      · intro _; exact List.Lex.nil
      · intro _; rfl
  | cons a as ih =>
    intro bs
    cases bs with
    | nil => simp [memcmpBytes]
    | cons b bs =>
      rw [memcmpBytes_cons_lt]
      constructor
      · rintro (h | ⟨rfl, h⟩)
        · exact List.Lex.rel h
        · exact List.Lex.cons ((ih bs).mp h)
      · intro h
        cases h with
        | cons h => exact Or.inr ⟨rfl, (ih bs).mpr h⟩
        | rel h => exact Or.inl h

theorem address.eq_iff_bytes {a b : address} : a = b ↔ a.to_bytes = b.to_bytes := by
  obtain ⟨⟨f⟩⟩ := a
  obtain ⟨⟨g⟩⟩ := b
  simp [address.to_bytes, in6_addr.mk.injEq, address.mk.injEq]

theorem address.beq_iff_eq {a b : address} : address.beq a b = true ↔ a = b := by
  rw [address.beq, ordering_beq_true_iff, memcmp_in6, in6_addr.bytesList,
    in6_addr.bytesList, memcmpBytes_eq_iff, List.ofFn_inj, address.eq_iff_bytes]
  constructor
  · intro h; exact h
  · intro h; exact h

theorem address.bne_eq_not_beq (a b : address) :
    address.bne a b = !address.beq a b := by
  rw [address.bne, address.beq]
  cases memcmp_in6 a.addr_ b.addr_ <;> rfl

theorem address.bne_iff_ne {a b : address} : address.bne a b = true ↔ a ≠ b := by
  have hbe := @address.beq_iff_eq a b
  rw [address.bne_eq_not_beq]
  cases h : address.beq a b <;> simp_all

theorem address.blt_irrefl (a : address) : address.blt a a = false := by
  have h : memcmpBytes a.addr_.bytesList a.addr_.bytesList = Ordering.eq :=
    (memcmpBytes_eq_iff _ _).mpr rfl
  simp only [address.blt, memcmp_in6, h]
  decide

/-- C1: for every 16-byte pattern `B`, `to_bytes(construct_from_bytes(B)) = B`;
construction from bytes is a total function, so every 16-byte pattern yields
a valid address. -/
theorem c1_bytes_roundtrip : ∀ B : bytes_type, (address.of_bytes B).to_bytes = B :=
  fun _ => rfl

/-- C2: address equality is equality of all 16 bytes; `operator<` is unsigned
big-endian lexicographic comparison of the 16 bytes; together they form a
strict total order: exactly one of `a < b`, `b < a`, `a == b` holds, and `<`
is irreflexive and transitive. -/
theorem c2_address_order :
    (∀ a b : address, address.beq a b = true ↔ ∀ i : Fin 16, a.to_bytes i = b.to_bytes i) ∧
    (∀ a b : address, address.blt a b = true ↔
      List.Lex (fun x y : Byte => x < y) (List.ofFn a.to_bytes) (List.ofFn b.to_bytes)) ∧
    (∀ a b : address,
      (address.blt a b = true ∧ address.blt b a = false ∧ address.beq a b = false) ∨
      (address.blt b a = true ∧ address.blt a b = false ∧ address.beq a b = false) ∨
      (address.beq a b = true ∧ address.blt a b = false ∧ address.blt b a = false)) ∧
    (∀ a : address, address.blt a a = false) ∧
    (∀ a b c : address, address.blt a b = true → address.blt b c = true →
      address.blt a c = true) := by
  refine ⟨?_, ?_, ?_, ?_, ?_⟩
  · intro a b
    rw [address.beq_iff_eq, address.eq_iff_bytes, funext_iff]
  · intro a b
    rw [address.blt, ordering_beq_true_iff, memcmp_in6, in6_addr.bytesList,
      in6_addr.bytesList, memcmpBytes_lt_iff_lex]
    rfl
  · intro a b
    have hs : memcmpBytes b.addr_.bytesList a.addr_.bytesList =
        (memcmpBytes a.addr_.bytesList b.addr_.bytesList).swap :=
      memcmpBytes_swap _ _
    rcases h : memcmpBytes a.addr_.bytesList b.addr_.bytesList with _ | _ | _ <;>
      rw [h] at hs
    · refine Or.inl ?_
      simp only [address.blt, address.beq, memcmp_in6, h, hs]
      decide
    · refine Or.inr (Or.inr ?_)
      simp only [address.blt, address.beq, memcmp_in6, h, hs]
      decide
    · refine Or.inr (Or.inl ?_)
      simp only [address.blt, address.beq, memcmp_in6, h, hs]
      decide
  · exact address.blt_irrefl
  · intro a b c h1 h2
    rw [address.blt, ordering_beq_true_iff] at h1 h2 ⊢
    exact memcmpBytes_lt_trans _ _ _ h1 h2

/-- Witness for C2: concrete addresses with `any < loopback < all-0xFF`, the
transitivity hypothesis discharged on them. -/
theorem c2_address_order_witness :
    address.blt address.any address.loopback = true ∧
    address.blt address.loopback (address.of_bytes (fun _ => 255)) = true ∧
    address.blt address.any (address.of_bytes (fun _ => 255)) = true :=
  ⟨by decide, by decide,
    c2_address_order.2.2.2.2 address.any address.loopback
      (address.of_bytes (fun _ => 255)) (by decide) (by decide)⟩

theorem network_host_roundtrip (v : Nat) :
    network_to_host_short (host_to_network_short v) = v % 65536 := by
  simp only [network_to_host_short, host_to_network_short]
  omega

/-- C4: the default endpoint constructor yields the loopback address and port
0; for every 16-bit port `p` the port-only constructor yields the loopback
address and port `p`. -/
theorem c4_default_ctors :
    (endpoint.mk_default.address = address.loopback ∧ endpoint.mk_default.port = 0) ∧
    (∀ p : Nat, p < 65536 →
      (endpoint.of_port p).address = address.loopback ∧ (endpoint.of_port p).port = p) := by
  refine ⟨⟨rfl, rfl⟩, ?_⟩
  intro p hp
  refine ⟨rfl, ?_⟩
  show network_to_host_short (host_to_network_short p) = p
  rw [network_host_roundtrip]
  omega

/-- Witness for C4: the port-only constructor at the concrete port 8080. -/
theorem c4_default_ctors_witness :
    8080 < 65536 ∧
    ((endpoint.of_port 8080).address = address.loopback ∧
      (endpoint.of_port 8080).port = 8080) :=
  ⟨by decide, c4_default_ctors.2 8080 (by decide)⟩

/-- C5: an endpoint constructed from a 16-bit port `p` and an address `a` has
`address() = a`, `port() = p`, and its packed `sin6_port` field holds `p` in
network byte order (most significant byte first). -/
theorem c5_port_addr_ctor : ∀ (p : Nat) (a : address), p < 65536 →
    (endpoint.of_port_addr p a).address = a ∧
    (endpoint.of_port_addr p a).port = p ∧
    (endpoint.of_port_addr p a).addr_.sin6_port.1.val = p / 256 ∧
    (endpoint.of_port_addr p a).addr_.sin6_port.2.val = p % 256 := by
  intro p a hp
  refine ⟨rfl, ?_, ?_, ?_⟩
  · show network_to_host_short (host_to_network_short p) = p
    rw [network_host_roundtrip]
    omega
  · show p / 256 % 256 = p / 256
    omega
  · rfl

/-- Witness for C5: port 8080 with the loopback address; in particular the
packed port bytes are `0x1F` and `0x90`. -/
theorem c5_port_addr_ctor_witness :
    8080 < 65536 ∧
    ((endpoint.of_port_addr 8080 address.loopback).address = address.loopback ∧
      (endpoint.of_port_addr 8080 address.loopback).port = 8080 ∧
      (endpoint.of_port_addr 8080 address.loopback).addr_.sin6_port.1.val = 8080 / 256 ∧
      (endpoint.of_port_addr 8080 address.loopback).addr_.sin6_port.2.val = 8080 % 256) :=
  ⟨by decide, c5_port_addr_ctor 8080 address.loopback (by decide)⟩

/-- C8: `set_native_size(s)` succeeds without error exactly when `s` is the
one constant `native_size()` value, fails with `invalid_argument` for every
other value, and never modifies the endpoint. -/
theorem c8_set_size : ∀ (e : endpoint) (s : Nat),
    endpoint.set_size e s =
      (e, if s = sizeof_sockaddr_in6 then none else some ⟨invalid_argument⟩) := by
  intro e s
  by_cases h : s = sizeof_sockaddr_in6 <;> simp [endpoint.set_size, h]

/-- C9: every constructor establishes family `AF_INET6`, flow info 0 and
scope id 0; `set_port`, `set_address` and `set_native_size` preserve those
three fields; the packed structure's size is the same constant for every
instance. -/
theorem c9_packed_invariants :
    (endpoint.mk_default.addr_.sin6_family = AF_INET6 ∧
      endpoint.mk_default.addr_.sin6_flowinfo = 0 ∧
      endpoint.mk_default.addr_.sin6_scope_id = 0) ∧
    (∀ p : Nat,
      (endpoint.of_port p).addr_.sin6_family = AF_INET6 ∧
      (endpoint.of_port p).addr_.sin6_flowinfo = 0 ∧
      (endpoint.of_port p).addr_.sin6_scope_id = 0) ∧
    (∀ (p : Nat) (a : address),
      (endpoint.of_port_addr p a).addr_.sin6_family = AF_INET6 ∧
      (endpoint.of_port_addr p a).addr_.sin6_flowinfo = 0 ∧
      (endpoint.of_port_addr p a).addr_.sin6_scope_id = 0) ∧
    (∀ (e : endpoint) (p : Nat),
      (endpoint.set_port e p).addr_.sin6_family = e.addr_.sin6_family ∧
      (endpoint.set_port e p).addr_.sin6_flowinfo = e.addr_.sin6_flowinfo ∧
      (endpoint.set_port e p).addr_.sin6_scope_id = e.addr_.sin6_scope_id) ∧
    (∀ (e : endpoint) (a : address),
      (endpoint.set_address e a).addr_.sin6_family = e.addr_.sin6_family ∧
      (endpoint.set_address e a).addr_.sin6_flowinfo = e.addr_.sin6_flowinfo ∧
      (endpoint.set_address e a).addr_.sin6_scope_id = e.addr_.sin6_scope_id) ∧
    (∀ (e : endpoint) (s : Nat), (endpoint.set_size e s).1 = e) ∧
    (∀ e : endpoint, e.size = sizeof_sockaddr_in6) := by
  refine ⟨⟨rfl, rfl, rfl⟩, fun p => ⟨rfl, rfl, rfl⟩, fun p a => ⟨rfl, rfl, rfl⟩,
    fun e p => ⟨rfl, rfl, rfl⟩, fun e a => ⟨rfl, rfl, rfl⟩, fun e s => ?_, fun e => rfl⟩
  by_cases h : s = sizeof_sockaddr_in6 <;> simp [endpoint.set_size, h]

/-- C10: `set_port` leaves the address bytes (and the address as observed via
`address()`) unchanged, and `set_address` leaves the port field (and the port
as observed via `port()`) unchanged. -/
theorem c10_setter_frames :
    (∀ (e : endpoint) (p : Nat),
      (endpoint.set_port e p).address = e.address ∧
      (endpoint.set_port e p).addr_.sin6_addr = e.addr_.sin6_addr) ∧
    (∀ (e : endpoint) (a : address),
      (endpoint.set_address e a).port = e.port ∧
      (endpoint.set_address e a).addr_.sin6_port = e.addr_.sin6_port) :=
  ⟨fun _ _ => ⟨rfl, rfl⟩, fun _ _ => ⟨rfl, rfl⟩⟩

/-- C6: two endpoints compare equal exactly when their addresses and ports
agree — in particular endpoints built via different constructors from the
same port and address compare equal; `operator!=` is the exact negation of
`operator==`; `operator<` orders by address first, then by port. -/
theorem c6_endpoint_order :
    (∀ e1 e2 : endpoint, endpoint.beq e1 e2 = true ↔
      e1.address = e2.address ∧ e1.port = e2.port) ∧
    (∀ e1 e2 : endpoint, endpoint.bne e1 e2 = !endpoint.beq e1 e2) ∧
    (∀ p : Nat,
      endpoint.beq (endpoint.of_port_addr p address.loopback) (endpoint.of_port p) = true) ∧
    (∀ e1 e2 : endpoint, endpoint.blt e1 e2 = true ↔
      (address.blt e1.address e2.address = true ∨
        (e1.address = e2.address ∧ e1.port < e2.port))) := by
  refine ⟨?_, ?_, ?_, ?_⟩
  · intro e1 e2
    simp [endpoint.beq, Bool.and_eq_true, address.beq_iff_eq, beq_iff_eq]
  · intro e1 e2
    rw [endpoint.bne, endpoint.beq, address.bne_eq_not_beq, Bool.not_and]
    rfl
  · intro p
    simp only [endpoint.beq, Bool.and_eq_true]
    exact ⟨address.beq_iff_eq.mpr rfl, beq_iff_eq.mpr rfl⟩
  · intro e1 e2
    by_cases hlt : address.blt e1.address e2.address = true
    · rw [endpoint.blt, if_pos hlt]
      exact ⟨fun _ => Or.inl hlt, fun _ => rfl⟩
    · by_cases hne : address.bne e1.address e2.address = true
      · have hne' : e1.address ≠ e2.address := address.bne_iff_ne.mp hne
        rw [endpoint.blt, if_neg hlt, if_pos hne]
        constructor
        · intro h; exact absurd h (by simp)
        · rintro (h | ⟨h, _⟩)
          · exact absurd h hlt
          · exact absurd h hne'
      · have heq : e1.address = e2.address := by
          by_contra hne'
          exact hne (address.bne_iff_ne.mpr hne')
        rw [endpoint.blt, if_neg hlt, if_neg hne, decide_eq_true_iff]
        constructor
        · intro h; exact Or.inr ⟨heq, h⟩
        · rintro (h | ⟨_, h⟩)
          · exact absurd h hlt
          · exact h

set_option maxRecDepth 4096 in
theorem byte_and_c0 : ∀ b : Fin 256, b.val &&& 0xC0 = b.val / 64 * 64 := by decide

theorem toNat128_eq_zero_iff (a : address) : toNat128 a = 0 ↔ a = address.any := by
  constructor
  · intro h
    simp only [toNat128] at h
    have e0 : a.to_bytes 0 = 0 := Fin.ext (by omega)
    have e1 : a.to_bytes 1 = 0 := Fin.ext (by omega)
    have e2 : a.to_bytes 2 = 0 := Fin.ext (by omega)
    have e3 : a.to_bytes 3 = 0 := Fin.ext (by omega)
    have e4 : a.to_bytes 4 = 0 := Fin.ext (by omega)
    have e5 : a.to_bytes 5 = 0 := Fin.ext (by omega)
    have e6 : a.to_bytes 6 = 0 := Fin.ext (by omega)
    have e7 : a.to_bytes 7 = 0 := Fin.ext (by omega)
    have e8 : a.to_bytes 8 = 0 := Fin.ext (by omega)
    have e9 : a.to_bytes 9 = 0 := Fin.ext (by omega)
    have e10 : a.to_bytes 10 = 0 := Fin.ext (by omega)
    have e11 : a.to_bytes 11 = 0 := Fin.ext (by omega)
    have e12 : a.to_bytes 12 = 0 := Fin.ext (by omega)
    have e13 : a.to_bytes 13 = 0 := Fin.ext (by omega)
    have e14 : a.to_bytes 14 = 0 := Fin.ext (by omega)
    have e15 : a.to_bytes 15 = 0 := Fin.ext (by omega)
    rw [address.eq_iff_bytes]
    funext i
    obtain ⟨iv, hiv⟩ := i
    interval_cases iv
    · exact e0
    · exact e1
    · exact e2
    · exact e3
    · exact e4
    · exact e5
    · exact e6
    · exact e7
    · exact e8
    · exact e9
    · exact e10
    · exact e11
    · exact e12
    · exact e13
    · exact e14
    · exact e15
  · rintro rfl
    decide

theorem toNat128_eq_one_iff (a : address) : toNat128 a = 1 ↔ a = address.loopback := by
  constructor
  · intro h
    simp only [toNat128] at h
    have e0 : a.to_bytes 0 = 0 := Fin.ext (by omega)
    have e1 : a.to_bytes 1 = 0 := Fin.ext (by omega)
    have e2 : a.to_bytes 2 = 0 := Fin.ext (by omega)
    have e3 : a.to_bytes 3 = 0 := Fin.ext (by omega)
    have e4 : a.to_bytes 4 = 0 := Fin.ext (by omega)
    have e5 : a.to_bytes 5 = 0 := Fin.ext (by omega)
    have e6 : a.to_bytes 6 = 0 := Fin.ext (by omega)
    have e7 : a.to_bytes 7 = 0 := Fin.ext (by omega)
    have e8 : a.to_bytes 8 = 0 := Fin.ext (by omega)
    have e9 : a.to_bytes 9 = 0 := Fin.ext (by omega)
    have e10 : a.to_bytes 10 = 0 := Fin.ext (by omega)
    have e11 : a.to_bytes 11 = 0 := Fin.ext (by omega)
    have e12 : a.to_bytes 12 = 0 := Fin.ext (by omega)
    have e13 : a.to_bytes 13 = 0 := Fin.ext (by omega)
    have e14 : a.to_bytes 14 = 0 := Fin.ext (by omega)
    have e15 : a.to_bytes 15 = 1 := Fin.ext (by omega)
    rw [address.eq_iff_bytes]
    funext i
    obtain ⟨iv, hiv⟩ := i
    interval_cases iv
    · exact e0
    · exact e1
    · exact e2
    · exact e3
    · exact e4
    · exact e5
    · exact e6
    · exact e7
    · exact e8
    · exact e9
    · exact e10
    · exact e11
    · exact e12
    · exact e13
    · exact e14
    · exact e15
  · rintro rfl
    decide

/-- C3: each classification predicate is a pure boolean function of the 16
bytes, true exactly for the spec's stated pattern on the 128-bit big-endian
value: `is_link_local` iff the top 10 bits are `1111111010`; `is_site_local`
iff the top 10 bits are `1111111011`; `is_ipv4_mapped` iff the first 80 bits
are zero and the next 16 bits are all one; `is_ipv4_compatible` iff the first
96 bits are zero and the address is neither the all-zero address nor the
loopback address; `is_multicast` iff the first byte is `0xFF`. -/
theorem c3_classification : ∀ a : address,
    (address.is_link_local a = true ↔ toNat128 a / 2 ^ 118 = 0x3FA) ∧
    (address.is_site_local a = true ↔ toNat128 a / 2 ^ 118 = 0x3FB) ∧
    (address.is_ipv4_mapped a = true ↔
      toNat128 a / 2 ^ 48 = 0 ∧ toNat128 a / 2 ^ 32 % 2 ^ 16 = 0xFFFF) ∧
    (address.is_ipv4_compatible a = true ↔
      toNat128 a / 2 ^ 32 = 0 ∧ a ≠ address.any ∧ a ≠ address.loopback) ∧
    (address.is_multicast a = true ↔ a.to_bytes 0 = 0xFF) := by
  intro a
  have h0 := (a.addr_.s6_addr 0).isLt
  have h1 := (a.addr_.s6_addr 1).isLt
  have h2 := (a.addr_.s6_addr 2).isLt
  have h3 := (a.addr_.s6_addr 3).isLt
  have h4 := (a.addr_.s6_addr 4).isLt
  have h5 := (a.addr_.s6_addr 5).isLt
  have h6 := (a.addr_.s6_addr 6).isLt
  have h7 := (a.addr_.s6_addr 7).isLt
  have h8 := (a.addr_.s6_addr 8).isLt
  have h9 := (a.addr_.s6_addr 9).isLt
  have h10 := (a.addr_.s6_addr 10).isLt
  have h11 := (a.addr_.s6_addr 11).isLt
  have h12 := (a.addr_.s6_addr 12).isLt
  have h13 := (a.addr_.s6_addr 13).isLt
  have h14 := (a.addr_.s6_addr 14).isLt
  have h15 := (a.addr_.s6_addr 15).isLt
  have hand := byte_and_c0 (a.addr_.s6_addr 1)
  refine ⟨?_, ?_, ?_, ?_, ?_⟩
  · simp only [address.is_link_local, IN6_IS_ADDR_LINKLOCAL, Bool.and_eq_true,
      beq_iff_eq, Fin.ext_iff, toNat128, address.to_bytes, hand]
    omega
  · simp only [address.is_site_local, IN6_IS_ADDR_SITELOCAL, Bool.and_eq_true,
      beq_iff_eq, Fin.ext_iff, toNat128, address.to_bytes, hand]
    omega
  · simp only [address.is_ipv4_mapped, IN6_IS_ADDR_V4MAPPED, Bool.and_eq_true,
      beq_iff_eq, Fin.ext_iff, toNat128, address.to_bytes]
    omega
  · have hne0 : (a ≠ address.any) ↔ ¬ toNat128 a = 0 :=
      not_congr (toNat128_eq_zero_iff a).symm
    have hne1 : (a ≠ address.loopback) ↔ ¬ toNat128 a = 1 :=
      not_congr (toNat128_eq_one_iff a).symm
    rw [hne0, hne1]
    simp only [address.is_ipv4_compatible, IN6_IS_ADDR_V4COMPAT, Bool.and_eq_true,
      beq_iff_eq, Fin.ext_iff, decide_eq_true_iff, toNat128, address.to_bytes]
    omega
  · simp only [address.is_multicast, IN6_IS_ADDR_MULTICAST, beq_iff_eq, address.to_bytes]

/-- Witness for C3: the concrete link-local address `fe80::1` classified via
the spec's bit pattern. -/
theorem c3_classification_witness :
    address.is_link_local
      (address.of_bytes (bytesOfList [254, 128, 0, 0, 0, 0, 0, 0, 0, 0, 0, 0, 0, 0, 0, 1])) =
      true :=
  ((c3_classification
      (address.of_bytes (bytesOfList [254, 128, 0, 0, 0, 0, 0, 0, 0, 0, 0, 0, 0, 0, 0, 1]))).1).mpr
    (by decide)

/-- C7: for every text that does not conform to IPv6 textual notation (the
modelled `inet_pton` rejects it), construction fails with an error carrying
the OS-level diagnostic code and assignment fails the same way while leaving
the target address unchanged; on success the fully parsed byte pattern — and
never a partial value — is produced. -/
theorem c7_invalid_text : ∀ (s : String) (a : address),
    (inet_pton_v6 s = none →
      address.of_string s = Except.error ⟨pton_failure_os_code⟩ ∧
      address.assign_string a s = (a, some ⟨pton_failure_os_code⟩)) ∧
    (∀ b : bytes_type, inet_pton_v6 s = some b →
      address.of_string s = Except.ok (address.of_bytes b) ∧
      address.assign_string a s = (address.of_bytes b, none)) := by
  intro s a
  constructor
  · intro h
    constructor <;> simp [address.of_string, address.assign_string, h]
  · intro b h
    constructor <;> simp [address.of_string, address.assign_string, address.of_bytes, h]

/-- Witness for C7: the concrete non-conforming text rejected by the parser,
with the failure leaving a loopback target unchanged. -/
theorem c7_invalid_text_witness :
    inet_pton_v6 ("not-an-address") = none ∧
    (address.of_string ("not-an-address") = Except.error ⟨pton_failure_os_code⟩ ∧
      address.assign_string address.loopback ("not-an-address") =
        (address.loopback, some ⟨pton_failure_os_code⟩)) :=
  ⟨rfl, (c7_invalid_text ("not-an-address") address.loopback).1 rfl⟩

end ipv6
end asio
